import Mathlib

/-!
Shallow embedding of the PageCheck fetch-hash-diff engine
(`src/pagecheck.py`, class `PageCheck`).

A Python `dict` mapping URL strings to digest strings is embedded as an
association list `List (String × String)`; `List.lookup` gives the value
of a key (Python dicts have unique keys, so first-match lookup agrees
with dict lookup on any list with no duplicate keys).  Python dict
construction and item assignment (`d[k] = v`, `dict(pairs)`) are embedded
by `insertItem` / `dictOf`, which update an existing key in place and
append a fresh key, exactly as CPython does.

The hasher (`self.hasher`, an arbitrary callable such as `GetHash`) is
embedded as a function `String → Option (String × String)`: `some (url,
digest)` models a normal return of the tuple, `none` models a raised
exception.  Exception propagation through `get_hash_dict` and
`check_update_notify` is modelled by `Option`/explicit failure results.
The notifier (`self.notifier`) is modelled by recording the list of
dictionaries it is invoked with during a pass.
-/

namespace PageCheckPy

/-- A Python dict from URL strings to digest strings, as an association list. -/
abbrev Dict := List (String × String)

/-- `d.keys()` of a Python dict: the list of keys. -/
def dictKeys (d : Dict) : List String := d.map Prod.fst

/-- Python item assignment `d[k] = v`: replace the value at an existing key
(keeping its position), or append the new pair at the end. -/
def insertItem (d : Dict) (p : String × String) : Dict :=
  if (List.lookup p.1 d).isSome then
    d.map (fun q => if q.1 = p.1 then (q.1, p.2) else q)
  else
    d ++ [p]

/-- Python `dict(pairs)`: build a dict by inserting the pairs left to right
(a later pair with the same key overwrites the earlier value). -/
def dictOf (pairs : List (String × String)) : Dict :=
  pairs.foldl insertItem []

/-- The body of the `for key in all_keys` loop of `PageCheck.diff_dict`
(src/pagecheck.py lines 126-135), for a single key of the key union:
`some (key, value)` when the loop stores `diff[key] = value`, `none` when
the key is skipped. -/
def diffEntry (first_dict second_dict : Dict) (key : String) :
    Option (String × String) :=
  if (List.lookup key second_dict).isNone then
    (List.lookup key first_dict).map (fun v => (key, v))
  else if (List.lookup key first_dict).isNone then
    (List.lookup key second_dict).map (fun v => (key, v))
  else if List.lookup key first_dict ≠ List.lookup key second_dict then
    (List.lookup key first_dict).map (fun v => (key, v))
  else
    none

/-- `PageCheck.diff_dict` (src/pagecheck.py lines 100-137): iterate over the
set of keys of both dicts and collect the changed entries.  Python iterates
a `set` in unspecified order; we fix the order given by `List.dedup` of the
concatenated key lists, which has the same members and no duplicates, so the
resulting dict is the same mapping. -/
def diff_dict (first_dict second_dict : Dict) : Dict :=
  let all_keys := (dictKeys first_dict ++ dictKeys second_dict).dedup
  all_keys.filterMap (diffEntry first_dict second_dict)

/-- The `PageCheck` object state used by the engine: the tracked
URL-to-digest dict, the hasher callable, and the process count.
The notifier is modelled by the invocation log that
`check_update_notify` returns, and `verbose`/`self.print` only produce
console output, so neither is part of the state. -/
structure PageCheck where
  page_dict : Dict
  hasher : String → Option (String × String)
  process_count : Nat

/-- The sequential branch of `PageCheck.get_hash_dict`
(src/pagecheck.py lines 93-96): `hash_dict = {}` then
`for url in url_list: returnedurl, hash_dict[url] = self.hasher(url)`,
with `acc` the dict built so far.  A `none` from the hasher is a raised
exception, which aborts the loop. -/
def seqHashGo (hasher : String → Option (String × String)) (acc : Dict) :
    List String → Option Dict
  | [] => some acc
  | url :: rest =>
    match hasher url with
    | none => none
    | some r => seqHashGo hasher (insertItem acc (url, r.2)) rest

/-- The multiprocessing branch of `PageCheck.get_hash_dict`
(src/pagecheck.py lines 89-92): `hash_pool.map(self.hasher, url_list)`
returns the list of result tuples, re-raising the exception of any worker
that failed. -/
def poolMap (hasher : String → Option (String × String)) :
    List String → Option (List (String × String))
  | [] => some []
  | url :: rest =>
    match hasher url, poolMap hasher rest with
    | some r, some rs => some (r :: rs)
    | _, _ => none

/-- `PageCheck.get_hash_dict` (src/pagecheck.py lines 86-98): with
`process_count > 2` build `dict(hash_pool.map(self.hasher, url_list))`,
otherwise run the sequential loop.  `none` models a propagated
exception. -/
def PageCheck.get_hash_dict (pc : PageCheck) (url_list : List String) :
    Option Dict :=
  if pc.process_count > 2 then
    (poolMap pc.hasher url_list).map dictOf
  else
    seqHashGo pc.hasher [] url_list

/-- `PageCheck.check_update_notify` (src/pagecheck.py lines 139-163).
The result is `(returned value, object state after the call, list of
dicts the notifier was invoked with)`.  A hasher exception propagates out
of `get_hash_dict` before the notifier call and before the
`self.page_dict = new_dict` assignment, so on failure the returned value
is `none`, the state is unchanged and the notifier log is empty. -/
def PageCheck.check_update_notify (pc : PageCheck) (run_silent : Bool) :
    Option Dict × PageCheck × List Dict :=
  match pc.get_hash_dict (dictKeys pc.page_dict) with
  | none => (none, pc, [])
  | some new_dict =>
    let diff := diff_dict new_dict pc.page_dict
    if diff ≠ [] ∧ run_silent = false then
      (some diff, { pc with page_dict := new_dict }, [diff])
    else
      (some diff, { pc with page_dict := new_dict }, [])

/-! ### Helper lemmas about dict lookup and construction -/

theorem lookup_isSome_iff (k : String) (d : Dict) :
    (List.lookup k d).isSome ↔ k ∈ dictKeys d := by
  induction d with
  | nil => simp [dictKeys]
  | cons p t ih =>
    obtain ⟨a, b⟩ := p
    by_cases h : k = a
    · simp [List.lookup_cons, dictKeys, h]
    · have hbeq : (k == a) = false := by simp [h]
      simp only [List.lookup_cons, hbeq]
      rw [ih]
      simp [dictKeys, h]

theorem lookup_append (k : String) (l1 l2 : Dict) :
    List.lookup k (l1 ++ l2) =
      match List.lookup k l1 with
      | some v => some v
      | none => List.lookup k l2 := by
  induction l1 with
  | nil => simp
  | cons q t ih =>
    obtain ⟨a, b⟩ := q
    by_cases hk : k = a
    · simp [List.lookup_cons, hk]
    · have hbeq : (k == a) = false := by simp [hk]
      simp [List.lookup_cons, hbeq, ih]

theorem lookup_map_update_ne (d : Dict) (p : String × String) (k : String)
    (hk : k ≠ p.1) :
    List.lookup k (d.map fun q => if q.1 = p.1 then (q.1, p.2) else q) =
      List.lookup k d := by
  obtain ⟨pk, pv⟩ := p
  simp only at hk
  induction d with
  | nil => simp
  | cons q t ih =>
    obtain ⟨a, b⟩ := q
    have hbeqp : (k == pk) = false := by simp [hk]
    by_cases hka : k = a
    · have hap : a ≠ pk := by rw [← hka]; exact hk
      have hbeq : (k == a) = true := by simp [hka]
      simp [List.lookup_cons, hap, hbeq]
    · have hbeq : (k == a) = false := by simp [hka]
      by_cases hap : a = pk
      · simp [List.lookup_cons, hap, hbeq, hbeqp, ih]
      · simp [List.lookup_cons, hap, hbeq, ih]

theorem lookup_map_update_eq (d : Dict) (p : String × String) :
    List.lookup p.1 (d.map fun q => if q.1 = p.1 then (q.1, p.2) else q) =
      (List.lookup p.1 d).map (fun _ => p.2) := by
  obtain ⟨pk, pv⟩ := p
  simp only
  induction d with
  | nil => simp
  | cons q t ih =>
    obtain ⟨a, b⟩ := q
    by_cases hap : pk = a
    · rw [← hap]
      simp [List.lookup_cons]
    · have hbeq : (pk == a) = false := by simp [hap]
      have hap2 : a ≠ pk := Ne.symm hap
      simp [List.lookup_cons, hap2, hbeq, ih]

theorem lookup_insertItem (d : Dict) (p : String × String) (k : String) :
    List.lookup k (insertItem d p) =
      if k = p.1 then some p.2 else List.lookup k d := by
  unfold insertItem
  by_cases hmem : (List.lookup p.1 d).isSome
  · rw [if_pos hmem]
    by_cases hk : k = p.1
    · subst hk
      rcases Option.isSome_iff_exists.mp hmem with ⟨v, hv⟩
      simp [lookup_map_update_eq, hv]
    · simp [lookup_map_update_ne d p k hk, hk]
  · rw [if_neg hmem]
    rw [lookup_append]
    obtain ⟨pk, pv⟩ := p
    simp only at hmem ⊢
    by_cases hk : k = pk
    · have hnone : List.lookup pk d = none :=
        Option.not_isSome_iff_eq_none.mp hmem
      have hbeq : (k == pk) = true := by simp [hk]
      simp [hnone, List.lookup_cons, hbeq, hk]
    · have hbeq : (k == pk) = false := by simp [hk]
      cases hd : List.lookup k d <;> simp [hk, hd, List.lookup_cons, hbeq]

theorem lookup_foldl_insertItem (pairs : List (String × String)) (acc : Dict)
    (k : String) :
    List.lookup k (pairs.foldl insertItem acc) =
      match List.lookup k pairs.reverse with
      | some v => some v
      | none => List.lookup k acc := by
  induction pairs generalizing acc with
  | nil => simp
  | cons p t ih =>
    simp only [List.foldl_cons, List.reverse_cons]
    rw [ih, lookup_append]
    cases h : List.lookup k t.reverse with
    | some v => simp only [h]
    | none =>
      simp only [h]
      rw [lookup_insertItem]
      obtain ⟨pk, pv⟩ := p
      by_cases hk : k = pk
      · have hbeq : (k == pk) = true := by simp [hk]
        simp [List.lookup_cons, hbeq, hk]
      · have hbeq : (k == pk) = false := by simp [hk]
        simp [List.lookup_cons, hbeq, hk]

theorem lookup_dictOf (pairs : List (String × String)) (k : String) :
    List.lookup k (dictOf pairs) = List.lookup k pairs.reverse := by
  unfold dictOf
  rw [lookup_foldl_insertItem]
  cases h : List.lookup k pairs.reverse <;> simp [h]

theorem lookup_map_of_fun (g : String → String) (l : List String) (k : String) :
    List.lookup k (l.map fun u => (u, g u)) =
      if k ∈ l then some (g k) else none := by
  induction l with
  | nil => simp
  | cons u t ih =>
    by_cases hk : k = u
    · have hbeq : (k == u) = true := by simp [hk]
      simp [List.lookup_cons, hbeq, hk]
    · have hbeq : (k == u) = false := by simp [hk]
      simp [List.lookup_cons, hbeq, hk, ih]

theorem foldl_insertItem_of_disjoint :
    ∀ (pairs : List (String × String)) (acc : Dict),
      (∀ p ∈ pairs, List.lookup p.1 acc = none) → (dictKeys pairs).Nodup →
      pairs.foldl insertItem acc = acc ++ pairs := by
  intro pairs
  induction pairs with
  | nil => intro acc h hnd; simp
  | cons p t ih =>
    intro acc h hnd
    simp only [dictKeys, List.map_cons, List.nodup_cons] at hnd
    have hfresh : List.lookup p.1 acc = none := h p (by simp)
    have hins : insertItem acc p = acc ++ [p] := by
      unfold insertItem
      rw [if_neg]
      simp [hfresh]
    simp only [List.foldl_cons]
    rw [hins, ih (acc ++ [p]) ?_ hnd.2]
    · simp
    · intro q hq
      rw [lookup_append, h q (by simp [hq])]
      obtain ⟨pk, pv⟩ := p
      have hne : q.1 ≠ pk := by
        intro he
        exact hnd.1 (he ▸ (List.mem_map.mpr ⟨q, hq, rfl⟩))
      have hbeq : (q.1 == pk) = false := by simp [hne]
      simp [List.lookup_cons, hbeq]

theorem dictOf_self (l : List (String × String))
    (hnd : (dictKeys l).Nodup) : dictOf l = l := by
  unfold dictOf
  rw [foldl_insertItem_of_disjoint l [] (by simp) hnd]
  simp

theorem lookup_dictOf_map (g : String → String) (l : List String) (k : String) :
    List.lookup k (dictOf (l.map fun u => (u, g u))) =
      if k ∈ l then some (g k) else none := by
  rw [lookup_dictOf, ← List.map_reverse, lookup_map_of_fun]
  simp [List.mem_reverse]

/-! ### Helper lemmas about the fetch-hash pool -/

theorem poolMap_of_success (hasher : String → Option (String × String))
    (g : String → String) :
    ∀ l : List String, (∀ u ∈ l, hasher u = some (u, g u)) →
      poolMap hasher l = some (l.map fun u => (u, g u)) := by
  intro l
  induction l with
  | nil => intro _; simp [poolMap]
  | cons u t ih =>
    intro hh
    have hu := hh u (by simp)
    have ht := ih (fun v hv => hh v (by simp [hv]))
    simp [poolMap, hu, ht]

theorem poolMap_of_failure (hasher : String → Option (String × String))
    (u : String) (hfail : hasher u = none) :
    ∀ l : List String, u ∈ l → poolMap hasher l = none := by
  intro l
  induction l with
  | nil => intro hu; cases hu
  | cons v t ih =>
    intro hu
    rcases List.mem_cons.mp hu with h | h
    · rw [← h]
      simp [poolMap, hfail]
    · cases hv : hasher v <;> simp [poolMap, hv, ih h]

theorem seqHashGo_of_failure (hasher : String → Option (String × String))
    (u : String) (hfail : hasher u = none) :
    ∀ l : List String, u ∈ l → ∀ acc : Dict, seqHashGo hasher acc l = none := by
  intro l
  induction l with
  | nil => intro hu; cases hu
  | cons v t ih =>
    intro hu acc
    rcases List.mem_cons.mp hu with h | h
    · rw [← h]
      simp [seqHashGo, hfail]
    · cases hv : hasher v with
      | none => simp [seqHashGo, hv]
      | some r => simp [seqHashGo, hv, ih h]

theorem seqHashGo_eq_poolMap (hasher : String → Option (String × String)) :
    ∀ l : List String, (∀ u ∈ l, ∀ r, hasher u = some r → r.1 = u) →
      ∀ acc : Dict,
      seqHashGo hasher acc l =
        (poolMap hasher l).map (fun ps => ps.foldl insertItem acc) := by
  intro l
  induction l with
  | nil => intro _ acc; simp [seqHashGo, poolMap]
  | cons u t ih =>
    intro hkey acc
    cases hu : hasher u with
    | none => simp [seqHashGo, poolMap, hu]
    | some r =>
      have hr : r.1 = u := hkey u (by simp) r hu
      simp only [seqHashGo, poolMap, hu]
      rw [ih (fun v hv => hkey v (by simp [hv]))]
      cases hp : poolMap hasher t with
      | none => simp
      | some ps =>
        simp only [hp, Option.map_some]
        have hpair : (u, r.2) = r := by
          rw [← hr]
        rw [hpair]
        simp [List.foldl_cons]

theorem get_hash_dict_of_success (pc : PageCheck) (g : String → String)
    (l : List String) (hh : ∀ u ∈ l, pc.hasher u = some (u, g u)) :
    pc.get_hash_dict l = some (dictOf (l.map fun u => (u, g u))) := by
  unfold PageCheck.get_hash_dict
  by_cases hp : pc.process_count > 2
  · rw [if_pos hp, poolMap_of_success pc.hasher g l hh]
    rfl
  · rw [if_neg hp]
    have hkey : ∀ u ∈ l, ∀ r, pc.hasher u = some r → r.1 = u := by
      intro u hu r hru
      rw [hh u hu] at hru
      have h2 : (u, g u) = r := Option.some.inj hru
      rw [← h2]
    rw [seqHashGo_eq_poolMap pc.hasher l hkey [],
      poolMap_of_success pc.hasher g l hh]
    rfl

theorem get_hash_dict_of_failure (pc : PageCheck) (l : List String) (u : String)
    (hu : u ∈ l) (hfail : pc.hasher u = none) :
    pc.get_hash_dict l = none := by
  unfold PageCheck.get_hash_dict
  by_cases hp : pc.process_count > 2
  · rw [if_pos hp, poolMap_of_failure pc.hasher u hfail l hu]
    simp
  · rw [if_neg hp, seqHashGo_of_failure pc.hasher u hfail l hu []]

/-! ### Characterization of the diff engine -/

theorem diffEntry_key (first_dict second_dict : Dict) (key : String) :
    ∀ p, diffEntry first_dict second_dict key = some p → p.1 = key := by
  intro p h
  unfold diffEntry at h
  split_ifs at h with h1 h2 h3
  · rcases Option.map_eq_some'.mp h with ⟨v, hv, hp⟩
    rw [← hp]
  · rcases Option.map_eq_some'.mp h with ⟨v, hv, hp⟩
    rw [← hp]
  · rcases Option.map_eq_some'.mp h with ⟨v, hv, hp⟩
    rw [← hp]

theorem lookup_filterMap_keyed (g : String → Option (String × String))
    (hg : ∀ k p, g k = some p → p.1 = k) :
    ∀ ks : List String, ks.Nodup → ∀ k : String,
      List.lookup k (ks.filterMap g) =
        if k ∈ ks then (g k).map Prod.snd else none := by
  intro ks
  induction ks with
  | nil => intro _ k; simp
  | cons k0 rest ih =>
    intro hnd k
    have hnd2 := List.nodup_cons.mp hnd
    cases hg0 : g k0 with
    | none =>
      rw [List.filterMap_cons_none hg0, ih hnd2.2 k]
      by_cases hk : k = k0
      · rw [hk]
        simp [hnd2.1, hg0]
      · simp [hk]
    | some p =>
      have hp : p.1 = k0 := hg k0 p hg0
      rw [List.filterMap_cons_some hg0]
      obtain ⟨pk, pv⟩ := p
      simp only at hp
      by_cases hk : k = k0
      · have hbeq : (k0 == pk) = true := by simp [hp]
        simp [List.lookup_cons, hbeq, hk, hg0]
      · have hbeq : (k == pk) = false := by simp [hp, hk]
        simp only [List.lookup_cons, hbeq]
        rw [ih hnd2.2 k]
        simp [hk]

theorem diff_dict_lookup (first_dict second_dict : Dict) (k : String) :
    List.lookup k (diff_dict first_dict second_dict) =
      match List.lookup k first_dict, List.lookup k second_dict with
      | some v, none => some v
      | none, some v => some v
      | some v1, some v2 => if v1 = v2 then none else some v1
      | none, none => none := by
  unfold diff_dict
  rw [lookup_filterMap_keyed (diffEntry first_dict second_dict)
    (diffEntry_key first_dict second_dict) _
    (List.nodup_dedup _) k]
  have hmem : k ∈ (dictKeys first_dict ++ dictKeys second_dict).dedup ↔
      (List.lookup k first_dict).isSome ∨ (List.lookup k second_dict).isSome := by
    rw [List.mem_dedup, List.mem_append, lookup_isSome_iff, lookup_isSome_iff]
  cases h1 : List.lookup k first_dict with
  | none =>
    cases h2 : List.lookup k second_dict with
    | none =>
      rw [if_neg]
      intro hm
      rcases hmem.mp hm with hs | hs <;> simp [h1, h2] at hs
    | some v =>
      rw [if_pos (hmem.mpr (Or.inr (by simp [h2])))]
      simp [diffEntry, h1, h2]
  | some v =>
    cases h2 : List.lookup k second_dict with
    | none =>
      rw [if_pos (hmem.mpr (Or.inl (by simp [h1])))]
      simp [diffEntry, h1, h2]
    | some w =>
      rw [if_pos (hmem.mpr (Or.inl (by simp [h1])))]
      by_cases hvw : v = w
      · simp [diffEntry, h1, h2, hvw]
      · simp [diffEntry, h1, h2, hvw]

theorem dictKeys_map_pair (g : String → String) (l : List String) :
    dictKeys (l.map fun u => (u, g u)) = l := by
  simp only [dictKeys, List.map_map]
  have : (Prod.fst ∘ fun u : String => (u, g u)) = id := by
    funext u
    rfl
  rw [this, List.map_id]

/-! ### Claim theorems -/

/-- Claim C1: for every PageCheck state with page_dict `P`, no duplicate keys,
and a deterministic total hasher returning `(url, g url)`, `check_update_notify`
computes the fresh map `F` by applying the hasher to every key of `P`, returns
`D = diff_dict F P`, invokes the notifier with `D` exactly once when `D` is
non-empty and `run_silent` is false (and never otherwise), and unconditionally
replaces `page_dict` with `F`. -/
theorem claim_C1 (pc : PageCheck) (run_silent : Bool) (g : String → String)
    (hnd : (dictKeys pc.page_dict).Nodup)
    (hh : ∀ u, pc.hasher u = some (u, g u)) :
    pc.check_update_notify run_silent =
      (some (diff_dict ((dictKeys pc.page_dict).map fun u => (u, g u)) pc.page_dict),
       { pc with page_dict := (dictKeys pc.page_dict).map fun u => (u, g u) },
       if diff_dict ((dictKeys pc.page_dict).map fun u => (u, g u)) pc.page_dict ≠ [] ∧
           run_silent = false then
         [diff_dict ((dictKeys pc.page_dict).map fun u => (u, g u)) pc.page_dict]
       else []) := by
  have hget : pc.get_hash_dict (dictKeys pc.page_dict) =
      some ((dictKeys pc.page_dict).map fun u => (u, g u)) := by
    rw [get_hash_dict_of_success pc g _ (fun u _ => hh u)]
    rw [dictOf_self _ (by rw [dictKeys_map_pair]; exact hnd)]
  by_cases hc : diff_dict ((dictKeys pc.page_dict).map fun u => (u, g u)) pc.page_dict ≠ [] ∧
      run_silent = false
  · simp only [PageCheck.check_update_notify, hget, if_pos hc]
  · simp only [PageCheck.check_update_notify, hget, if_neg hc]

theorem claim_C1_witness :
    (dictKeys ([("A", "h1")] : Dict)).Nodup ∧
    PageCheck.check_update_notify ⟨[("A", "h1")], fun v => some (v, "h2"), 1⟩ false =
      (some [("A", "h2")],
       (⟨[("A", "h2")], fun v => some (v, "h2"), 1⟩ : PageCheck),
       [[("A", "h2")]]) :=
  ⟨by simp [dictKeys],
   claim_C1 ⟨[("A", "h1")], fun v => some (v, "h2"), 1⟩ false (fun _ => "h2")
     (by simp [dictKeys]) (fun u => rfl)⟩

/-- Claim C2: `diff_dict first second` contains exactly: every key of `first`
absent from `second` with first's value, every key of `second` absent from
`first` with second's value, and every key of both with unequal values with
first's value; keys with equal values in both are excluded. -/
theorem claim_C2 (first_dict second_dict : Dict) (k : String) :
    List.lookup k (diff_dict first_dict second_dict) =
      match List.lookup k first_dict, List.lookup k second_dict with
      | some v, none => some v
      | none, some v => some v
      | some v1, some v2 => if v1 = v2 then none else some v1
      | none, none => none :=
  diff_dict_lookup first_dict second_dict k

/-- Claim C3: a hasher that raises on at least one key of `page_dict` makes
`check_update_notify` propagate the failure: the pass returns no diff, the
notifier is never invoked and `page_dict` is left unchanged. -/
theorem claim_C3 (pc : PageCheck) (run_silent : Bool) (u : String)
    (hu : u ∈ dictKeys pc.page_dict) (hfail : pc.hasher u = none) :
    pc.check_update_notify run_silent = (none, pc, []) := by
  unfold PageCheck.check_update_notify
  rw [get_hash_dict_of_failure pc _ u hu hfail]

theorem claim_C3_witness :
    "A" ∈ dictKeys ([("A", "h1")] : Dict) ∧
    PageCheck.check_update_notify ⟨[("A", "h1")], fun _ => none, 1⟩ false =
      (none, (⟨[("A", "h1")], fun _ => none, 1⟩ : PageCheck), []) :=
  ⟨by simp [dictKeys],
   claim_C3 ⟨[("A", "h1")], fun _ => none, 1⟩ false "A" (by simp [dictKeys]) rfl⟩

/-- Claim C4 counterexample: with `A = {}` and `B = {"u": "h"}`,
`diff_dict A B` holds the value `"h"` at key `"u"`, which is not sourced from
the first argument `A` (the key is absent from `A`), refuting "every value in
`diff_dict(A, B)` is sourced from the first argument `A`". -/
theorem claim_C4_counterexample :
    List.lookup "u" (diff_dict ([] : Dict) [("u", "h")]) = some "h" ∧
    List.lookup "u" ([] : Dict) = none := by
  constructor
  · rfl
  · rfl

/-- Claim C4, amended: `diff_dict A B` and `diff_dict B A` have identical key
sets, and each value of `diff_dict A B` is sourced from the first argument `A`
when `A` holds its key, and from `B` when the key is absent from `A`. -/
theorem claim_C4_amended (A B : Dict) (k : String) :
    ((List.lookup k (diff_dict A B)).isSome ↔
      (List.lookup k (diff_dict B A)).isSome) ∧
    (List.lookup k (diff_dict A B) = none ∨
     List.lookup k (diff_dict A B) = List.lookup k A ∨
     (List.lookup k A = none ∧
      List.lookup k (diff_dict A B) = List.lookup k B)) := by
  rw [diff_dict_lookup A B k, diff_dict_lookup B A k]
  cases h1 : List.lookup k A with
  | none =>
    cases h2 : List.lookup k B with
    | none => simp
    | some w => simp
  | some v =>
    cases h2 : List.lookup k B with
    | none => simp
    | some w =>
      by_cases hvw : v = w
      · simp [hvw]
      · simp [hvw, Ne.symm hvw]

/-- Claim C5: for every identifier list and deterministic hasher returning
`(url, digest)` for its input url, `get_hash_dict` with `process_count = 1`
and with `process_count = N` for `N > 1` return the same output map: the
pooled and sequential execution paths are semantically equivalent. -/
theorem claim_C5 (pc : PageCheck) (url_list : List String) (N : Nat)
    (hN : N > 1) (g : String → String)
    (hh : ∀ u, pc.hasher u = some (u, g u)) :
    PageCheck.get_hash_dict { pc with process_count := 1 } url_list =
      PageCheck.get_hash_dict { pc with process_count := N } url_list := by
  rw [get_hash_dict_of_success { pc with process_count := 1 } g url_list
      (fun u _ => hh u),
    get_hash_dict_of_success { pc with process_count := N } g url_list
      (fun u _ => hh u)]

theorem claim_C5_witness :
    4 > 1 ∧
    PageCheck.get_hash_dict
        { (⟨[], fun v => some (v, "d"), 0⟩ : PageCheck) with process_count := 1 }
        ["a", "b"] =
      PageCheck.get_hash_dict
        { (⟨[], fun v => some (v, "d"), 0⟩ : PageCheck) with process_count := 4 }
        ["a", "b"] :=
  ⟨by decide,
   claim_C5 ⟨[], fun v => some (v, "d"), 0⟩ ["a", "b"] 4 (by decide)
     (fun _ => "d") (fun u => rfl)⟩

/-- Claim C6: for every finite identifier list and a hasher succeeding on each
identifier with `(url, g url)`, `get_hash_dict` returns exactly the map whose
keys are the input identifiers, each bound to the digest the hasher produced
for it. -/
theorem claim_C6 (pc : PageCheck) (url_list : List String)
    (g : String → String) (k : String)
    (hh : ∀ u, pc.hasher u = some (u, g u)) :
    pc.get_hash_dict url_list =
      some (dictOf (url_list.map fun u => (u, g u))) ∧
    List.lookup k (dictOf (url_list.map fun u => (u, g u))) =
      if k ∈ url_list then some (g k) else none :=
  ⟨get_hash_dict_of_success pc g url_list (fun u _ => hh u),
   lookup_dictOf_map g url_list k⟩

theorem claim_C6_witness :
    PageCheck.get_hash_dict (⟨[], fun v => some (v, "d"), 4⟩ : PageCheck)
        ["a", "b"] = some [("a", "d"), ("b", "d")] ∧
    List.lookup "a" ([("a", "d"), ("b", "d")] : Dict) = some "d" :=
  claim_C6 ⟨[], fun v => some (v, "d"), 4⟩ ["a", "b"] (fun _ => "d") "a"
    (fun u => rfl)

/-- Claim C7: when a pass produces a non-empty DiffMap and `run_silent` is
true, `check_update_notify` never invokes the notifier, yet `page_dict` is
still replaced with the freshly computed map. -/
theorem claim_C7 (pc : PageCheck) (F : Dict)
    (hF : pc.get_hash_dict (dictKeys pc.page_dict) = some F)
    (hne : diff_dict F pc.page_dict ≠ []) :
    pc.check_update_notify true =
      (some (diff_dict F pc.page_dict), { pc with page_dict := F }, []) := by
  have hc : ¬(diff_dict F pc.page_dict ≠ [] ∧ (true : Bool) = false) := by
    simp
  simp only [PageCheck.check_update_notify, hF, if_neg hc]

theorem claim_C7_witness :
    PageCheck.get_hash_dict (⟨[("A", "h1")], fun v => some (v, "h2"), 1⟩ :
        PageCheck) (dictKeys ([("A", "h1")] : Dict)) = some [("A", "h2")] ∧
    diff_dict [("A", "h2")] ([("A", "h1")] : Dict) ≠ [] ∧
    PageCheck.check_update_notify
        ⟨[("A", "h1")], fun v => some (v, "h2"), 1⟩ true =
      (some [("A", "h2")],
       (⟨[("A", "h2")], fun v => some (v, "h2"), 1⟩ : PageCheck), []) :=
  ⟨rfl, by decide,
   claim_C7 ⟨[("A", "h1")], fun v => some (v, "h2"), 1⟩ [("A", "h2")] rfl
     (by decide)⟩

/-- Claim C8: diffing any map against itself yields the empty map. -/
theorem claim_C8 (A : Dict) : diff_dict A A = [] := by
  unfold diff_dict
  apply List.filterMap_eq_nil_iff.mpr
  intro k hk
  unfold diffEntry
  by_cases h : (List.lookup k A).isNone
  · rw [if_pos h, Option.isNone_iff_eq_none.mp h]
    rfl
  · rw [if_neg h, if_neg h, if_neg (fun hne => hne rfl)]

/-- Claim C9: for maps whose key sets are disjoint at `k`, `diff_dict A B`
holds exactly the union of the two maps at `k`: the value from whichever map
holds the key, and nothing when neither does. -/
theorem claim_C9 (A B : Dict) (k : String)
    (hdisj : ¬((List.lookup k A).isSome ∧ (List.lookup k B).isSome)) :
    List.lookup k (diff_dict A B) =
      if (List.lookup k A).isSome then List.lookup k A
      else List.lookup k B := by
  rw [diff_dict_lookup A B k]
  cases h1 : List.lookup k A with
  | none =>
    cases h2 : List.lookup k B with
    | none => simp
    | some w => simp
  | some v =>
    cases h2 : List.lookup k B with
    | none => simp
    | some w =>
      exact absurd ⟨by simp [h1], by simp [h2]⟩ hdisj

theorem claim_C9_witness :
    ¬((List.lookup "a" ([("a", "1")] : Dict)).isSome ∧
      (List.lookup "a" ([("b", "2")] : Dict)).isSome) ∧
    List.lookup "a" (diff_dict [("a", "1")] [("b", "2")]) = some "1" :=
  ⟨by decide, claim_C9 [("a", "1")] [("b", "2")] "a" (by decide)⟩

theorem check_update_notify_page_dict (pc : PageCheck) (g : String → String)
    (run_silent : Bool) (hh : ∀ u, pc.hasher u = some (u, g u)) :
    (pc.check_update_notify run_silent).2.1.page_dict =
      dictOf ((dictKeys pc.page_dict).map fun u => (u, g u)) := by
  unfold PageCheck.check_update_notify
  rw [get_hash_dict_of_success pc g _ (fun u _ => hh u)]
  simp only
  split <;> rfl

/-- Claim C10: a pass with a hasher that succeeds on every key and returns
`(url, digest)` for its input url preserves the set of tracked identifiers:
the key set of `page_dict` after `check_update_notify` equals the key set
before the call. -/
theorem claim_C10 (pc : PageCheck) (run_silent : Bool) (g : String → String)
    (k : String) (hh : ∀ u, pc.hasher u = some (u, g u)) :
    (List.lookup k (pc.check_update_notify run_silent).2.1.page_dict).isSome ↔
      (List.lookup k pc.page_dict).isSome := by
  rw [check_update_notify_page_dict pc g run_silent hh, lookup_dictOf_map,
    lookup_isSome_iff k pc.page_dict]
  by_cases hk : k ∈ dictKeys pc.page_dict
  · simp [hk]
  · simp [hk]

theorem claim_C10_witness :
    (List.lookup "A"
        (PageCheck.check_update_notify
          ⟨[("A", "h1")], fun v => some (v, "h2"), 1⟩ false).2.1.page_dict).isSome ↔
      (List.lookup "A" ([("A", "h1")] : Dict)).isSome :=
  claim_C10 ⟨[("A", "h1")], fun v => some (v, "h2"), 1⟩ false (fun _ => "h2")
    "A" (fun u => rfl)

end PageCheckPy
